import Mathlib

/-
Verification of the Fare Aggregation & Normalization Pipeline
(flight-fare scrapers, normalizers, snapshot writer and merger).

Shallow embedding conventions:
* machine floats are modelled as rationals (ℚ); Python `float(x)` on a
  numeric value is the identity in this model;
* Python dicts parsed from JSON are modelled as typed structures whose
  fields correspond to the keys the code reads, with `Option` for keys
  whose value may be `null` or absent;
* network fetches are modelled as an injected function returning
  `Except` (an `error e` models a raised exception, e.g. an HTTP error
  status such as 403);
* file-system persistence is modelled as the list of write operations a
  run issues, in program order.
-/

namespace WF

/-- Calendar date (the date part of a Python `datetime`). -/
structure Date where
  year : Nat
  month : Nat
  day : Nat
deriving DecidableEq, Repr

/-- Gregorian leap-year rule, as implemented by Python `datetime`. -/
def isLeap (y : Nat) : Bool :=
  (y % 4 == 0 && y % 100 != 0) || y % 400 == 0

/-- Number of days in month `m` of year `y` (Gregorian). -/
def daysInMonth (y m : Nat) : Nat :=
  if m == 2 then (if isLeap y then 29 else 28)
  else if m == 4 || m == 6 || m == 9 || m == 11 then 30
  else 31

/-- Python `d - timedelta(days=1)`: the previous calendar day. -/
def predDate (d : Date) : Date :=
  if 1 < d.day then ⟨d.year, d.month, d.day - 1⟩
  else if 1 < d.month then ⟨d.year, d.month - 1, daysInMonth d.year (d.month - 1)⟩
  else ⟨d.year - 1, 12, 31⟩

/-- Lexicographic date comparison, as `datetime` comparison on dates. -/
def dateLe (a b : Date) : Bool :=
  a.year < b.year ||
    (a.year == b.year &&
      (a.month < b.month || (a.month == b.month && a.day ≤ b.day)))

/-- Python `max(a, b)` on dates: `b` when `b > a`, else `a`. -/
def maxDate (a b : Date) : Date :=
  if dateLe b a then a else b

/-- One query window: `(start_date, end_date)` for a route request. -/
structure Window where
  startD : Date
  endD : Date
deriving DecidableEq, Repr

/-- Year of the month `off` months after `today`'s month, exactly as
`NorseScraper.scrape_route` computes it:
`today.year + (today.month + month_offset - 1) // 12`. -/
def offYear (today : Date) (off : Nat) : Nat :=
  today.year + (today.month + off - 1) / 12

/-- Month number of the month `off` months after `today`'s month:
`(today.month + month_offset - 1) % 12 + 1`. -/
def offMonth (today : Date) (off : Nat) : Nat :=
  (today.month + off - 1) % 12 + 1

/-- The window `NorseScraper.scrape_route` builds for `month_offset = off`:
start is the 1st of the month (clamped to `today` for the first month via
`max(start_date, today)`), end is the 1st of the next month minus one day. -/
def windowFor (today : Date) (off : Nat) : Window :=
  let year := offYear today off
  let month := offMonth today off
  let startA : Date := ⟨year, month, 1⟩
  let endD : Date :=
    if month == 12 then predDate ⟨year + 1, 1, 1⟩
    else predDate ⟨year, month + 1, 1⟩
  let startD := if off == 0 then maxDate startA today else startA
  ⟨startD, endD⟩

/-- The ordered window sequence of `NorseScraper.scrape_route`
(`for month_offset in range(months_ahead)`). -/
def planWindows (today : Date) (monthsAhead : Nat) : List Window :=
  (List.range monthsAhead).map (windowFor today)

theorem offIndex_eq (today : Date) (off : Nat) (hm1 : 1 ≤ today.month) :
    offYear today off * 12 + offMonth today off =
      today.year * 12 + today.month + off := by
  unfold offYear offMonth
  have h := Nat.div_add_mod (today.month + off - 1) 12
  omega

theorem daysInMonth_twelve (y : Nat) : daysInMonth y 12 = 31 := rfl

theorem offMonth_pos (today : Date) (off : Nat) : 1 ≤ offMonth today off := by
  unfold offMonth; omega

theorem offMonth_le (today : Date) (off : Nat) : offMonth today off ≤ 12 := by
  unfold offMonth
  have h : (today.month + off - 1) % 12 < 12 := Nat.mod_lt _ (by omega)
  omega

theorem windowFor_endD (today : Date) (off : Nat) :
    (windowFor today off).endD =
      ⟨offYear today off, offMonth today off,
        daysInMonth (offYear today off) (offMonth today off)⟩ := by
  have hm1 : 1 ≤ offMonth today off := offMonth_pos today off
  by_cases h12 : offMonth today off = 12
  · simp [windowFor, h12, predDate, daysInMonth_twelve]
  · have h2 : 1 < offMonth today off + 1 := by omega
    simp [windowFor, predDate, h12, h2]

theorem maxDate_first (y m d : Nat) (hd : 1 ≤ d) :
    maxDate ⟨y, m, 1⟩ ⟨y, m, d⟩ = ⟨y, m, d⟩ := by
  unfold maxDate dateLe
  by_cases h1 : d = 1
  · subst h1; simp
  · have hle : ¬ (d ≤ 1) := by omega
    simp [hle]

theorem windowFor_zero_start (today : Date) (hm1 : 1 ≤ today.month)
    (hm2 : today.month ≤ 12) (hd1 : 1 ≤ today.day) :
    (windowFor today 0).startD = today := by
  obtain ⟨ty, tm, td⟩ := today
  simp only [Date.month] at hm1 hm2
  simp only [Date.day] at hd1
  have hy : offYear ⟨ty, tm, td⟩ 0 = ty := by
    unfold offYear
    have h : (tm + 0 - 1) / 12 = 0 := Nat.div_eq_of_lt (by omega)
    simp only [Date.year, Date.month] at h ⊢
    omega
  have hmm : offMonth ⟨ty, tm, td⟩ 0 = tm := by
    unfold offMonth
    simp only [Date.month]
    have h : tm + 0 - 1 < 12 := by omega
    rw [Nat.mod_eq_of_lt h]; omega
  have hmax := maxDate_first ty tm td hd1
  simp [windowFor, hy, hmm, hmax]

theorem planWindows_length (today : Date) (n : Nat) :
    (planWindows today n).length = n := by
  simp [planWindows]

theorem planWindows_get (today : Date) (n i : Nat) (w : Window)
    (h : (planWindows today n)[i]? = some w) :
    i < n ∧ w = windowFor today i := by
  unfold planWindows at h
  rw [List.getElem?_map] at h
  rcases Option.map_eq_some'.mp h with ⟨j, hj, hw⟩
  have hin : i < n := by
    by_contra hge
    have hlen : (List.range n).length ≤ i := by
      simp only [List.length_range]; omega
    rw [List.getElem?_eq_none hlen] at hj
    exact Option.noConfusion hj
  rw [List.getElem?_range hin] at hj
  cases hj
  exact ⟨hin, hw.symm⟩

/-- C2: for every valid `today` and `horizonMonths = n ≥ 1`, the Norse
range-window planner (`NorseScraper.scrape_route`) emits exactly `n`
windows; window `i` covers the calendar month `i` months after `today`'s
month (year rollover included, expressed through the linear month index
`year * 12 + month`); every window ends on the last day of its calendar
month; no window ends in a month before `today`'s month; and the first
window starts at `today` when `today` is not the 1st of its month, and on
the 1st of the month otherwise. -/
theorem planner_windows_correct (today : Date) (n : Nat)
    (hm1 : 1 ≤ today.month) (hm2 : today.month ≤ 12)
    (hd1 : 1 ≤ today.day) (hn : 1 ≤ n) :
    (planWindows today n).length = n ∧
    (∀ i w, (planWindows today n)[i]? = some w →
      w.endD.year * 12 + w.endD.month = today.year * 12 + today.month + i ∧
      w.endD.day = daysInMonth w.endD.year w.endD.month ∧
      today.year * 12 + today.month ≤ w.endD.year * 12 + w.endD.month) ∧
    (∀ w, (planWindows today n)[0]? = some w →
      (today.day ≠ 1 → w.startD = today) ∧
      (today.day = 1 → w.startD = ⟨today.year, today.month, 1⟩)) := by
  refine ⟨planWindows_length today n, ?_, ?_⟩
  · intro i w h
    rcases planWindows_get today n i w h with ⟨hin, hw⟩
    subst hw
    rw [windowFor_endD]
    refine ⟨?_, rfl, ?_⟩
    · exact offIndex_eq today i hm1
    · rw [offIndex_eq today i hm1]; omega
  · intro w h
    rcases planWindows_get today n 0 w h with ⟨_, hw⟩
    subst hw
    have hs := windowFor_zero_start today hm1 hm2 hd1
    constructor
    · intro _; exact hs
    · intro hd
      rw [hs]
      cases today
      simp_all

/-- Witness for C2 at the spec scenario `today = 2026-01-20`,
`horizonMonths = 2`: the two emitted windows are
`[2026-01-20 .. 2026-01-31]` and `[2026-02-01 .. 2026-02-28]`. -/
theorem planner_windows_correct_witness :
    (planWindows ⟨2026, 1, 20⟩ 2).length = 2 ∧
    planWindows ⟨2026, 1, 20⟩ 2 =
      [⟨⟨2026, 1, 20⟩, ⟨2026, 1, 31⟩⟩, ⟨⟨2026, 2, 1⟩, ⟨2026, 2, 28⟩⟩] :=
  ⟨(planner_windows_correct ⟨2026, 1, 20⟩ 2 (by decide) (by decide)
      (by decide) (by decide)).1,
   by decide⟩

namespace Norse

/-- The `Flight` dataclass of `flynorse/norse_scraper.py`. -/
structure Flight where
  airline : String
  origin : String
  destination : String
  departure_date : String
  price : ℚ
  currency : String
  scraped_at : String
  booking_url : String
  is_sale_fare : Bool
deriving DecidableEq, Repr

/-- One entry of a cabin's `lowFareAmounts` list, holding the fields the
parser reads; `none` models JSON `null` or an absent key. -/
structure LowFare where
  fareTotal : Option ℚ
  roundedFareTotal : Option ℚ
  departureDate : String
  isSaleFare : Bool
deriving DecidableEq, Repr

/-- One cabin entry of a city pair (`cabinName`, `lowFareAmounts`). -/
structure Cabin where
  cabinName : String
  lowFareAmounts : List LowFare
deriving DecidableEq, Repr

/-- One element of the response's `data` list, with its `cityPair` fields
flattened to the two keys the parser reads. -/
structure CityPairData where
  origin : String
  destination : String
  cabins : List Cabin
deriving DecidableEq, Repr

/-- A Norse low-fare API response (`{"data": [...]}`). -/
structure Response where
  data : List CityPairData
deriving DecidableEq, Repr

/-- Constant `NorseScraper.BOOKING_URL`. -/
def BOOKING_URL : String := "https://flynorse.com/en-GB/booking/select"

/-- The booking deep link built for one emitted record. -/
def bookingUrl (origin destination dd cabinName : String) : String :=
  BOOKING_URL ++ "?origin=" ++ origin ++ "&destination=" ++ destination ++
    "&date=" ++ dd ++ "&cabin=" ++ cabinName

/-- Python `fare.get("roundedFareTotal") or fare_total`: the rounded value
when present and truthy (non-zero), the raw `fareTotal` otherwise. -/
def priceOf (roundedFareTotal : Option ℚ) (fareTotal : ℚ) : ℚ :=
  match roundedFareTotal with
  | none => fareTotal
  | some r => if r = 0 then fareTotal else r

/-- Innermost loop body of `NorseScraper.parse_lowfare_response`: the
record appended for one `lowFareAmounts` entry, or `none` when the entry
is skipped (null `fareTotal`, or empty departure date). -/
def parseFare (scraped_at currency origin destination cabinName : String)
    (fare : LowFare) : Option Flight :=
  match fare.fareTotal with
  | none => none
  | some ft =>
    let price := priceOf fare.roundedFareTotal ft
    let dd := fare.departureDate.take 10
    if dd = "" then none
    else some
      { airline := "norse", origin := origin, destination := destination,
        departure_date := dd, price := price, currency := currency,
        scraped_at := scraped_at,
        booking_url := bookingUrl origin destination dd cabinName,
        is_sale_fare := fare.isSaleFare }

/-- Function `NorseScraper.parse_lowfare_response`: iterate the `data` list, skip
city pairs with an empty origin or destination, then iterate cabins and
their fare entries in order. -/
def parse_lowfare_response (scraped_at currency : String)
    (response : Response) : List Flight :=
  response.data.flatMap fun cp =>
    if cp.origin = "" ∨ cp.destination = "" then []
    else cp.cabins.flatMap fun cabin =>
      cabin.lowFareAmounts.filterMap
        (parseFare scraped_at currency cp.origin cp.destination cabin.cabinName)

/-- Number of `lowFareAmounts` entries across all city pairs and cabins
that carry a non-null `fareTotal` (the "(date, fareBucket)" entries of a
Norse response with a price). -/
def nonNullFareCount (response : Response) : Nat :=
  (response.data.map fun cp =>
    (cp.cabins.map fun cabin =>
      (cabin.lowFareAmounts.filter fun f => f.fareTotal.isSome).length).sum).sum

/-- The same response with every null-price fare entry removed. -/
def stripNullFares (response : Response) : Response :=
  ⟨response.data.map fun cp =>
    ⟨cp.origin, cp.destination,
      cp.cabins.map fun cabin =>
        ⟨cabin.cabinName,
          cabin.lowFareAmounts.filter fun f => f.fareTotal.isSome⟩⟩⟩

end Norse

/-- C4: on a Norse response with one route entry containing exactly two
date entries — one with `fareTotal 493.57` and `roundedFareTotal 494`,
the other with `fareTotal null` — the normalizer emits exactly one
record, and its price is 494. -/
theorem norse_two_entry_scenario :
    ((Norse.parse_lowfare_response ("2026-01-01T00:00:00Z") ("GBP")
        ⟨[⟨"LGW", "BKK",
           [⟨"Economy",
             [⟨some (49357/100), some 494, "2026-01-09T00:00:00", false⟩,
              ⟨none, none, "2026-01-10T00:00:00", false⟩]⟩]⟩]⟩).map
      (fun f => f.price)) = [494] := by
  decide

/-- C10: for a single-entry Norse response whose fare has a non-null
`fareTotal = ft`, the emitted price equals the rounded total exactly when
`roundedFareTotal` is present and non-zero; when it is absent, null, or
zero, the price falls back to `ft`. -/
theorem norse_rounded_price_fallback
    (ft : ℚ) (rft : Option ℚ) (sale : Bool) (o d dd cn sa cur : String)
    (ho : o ≠ "") (hd : d ≠ "") (hdd : dd.take 10 ≠ "") :
    (rft = none →
      (Norse.parse_lowfare_response sa cur
          ⟨[⟨o, d, [⟨cn, [⟨some ft, rft, dd, sale⟩]⟩]⟩]⟩).map
        (fun f => f.price) = [ft]) ∧
    (rft = some 0 →
      (Norse.parse_lowfare_response sa cur
          ⟨[⟨o, d, [⟨cn, [⟨some ft, rft, dd, sale⟩]⟩]⟩]⟩).map
        (fun f => f.price) = [ft]) ∧
    (∀ r, rft = some r → r ≠ 0 →
      (Norse.parse_lowfare_response sa cur
          ⟨[⟨o, d, [⟨cn, [⟨some ft, rft, dd, sale⟩]⟩]⟩]⟩).map
        (fun f => f.price) = [r]) := by
  have hfs : (Norse.parse_lowfare_response sa cur
      ⟨[⟨o, d, [⟨cn, [⟨some ft, rft, dd, sale⟩]⟩]⟩]⟩).map
        (fun f => f.price) = [Norse.priceOf rft ft] := by
    simp [Norse.parse_lowfare_response, Norse.parseFare, ho, hd, hdd]
  refine ⟨?_, ?_, ?_⟩
  · intro h; subst h; simpa [Norse.priceOf] using hfs
  · intro h; subst h; simpa [Norse.priceOf] using hfs
  · intro r h hr; subst h
    simpa [Norse.priceOf, hr] using hfs

/-- Witness for C10: a fare entry with `fareTotal 493.57` and non-zero
`roundedFareTotal 494` yields price 494. -/
theorem norse_rounded_price_fallback_witness :
    ((Norse.parse_lowfare_response ("t") ("GBP")
        ⟨[⟨"LGW", "BKK",
           [⟨"Economy",
             [⟨some (49357/100), some 494, "2026-01-09T00:00:00",
               false⟩]⟩]⟩]⟩).map (fun f => f.price)) = [494] := by
  have h := norse_rounded_price_fallback (49357/100) (some 494) false
    ("LGW") ("BKK") ("2026-01-09T00:00:00") ("Economy") ("t") ("GBP")
    (by decide) (by decide) (by decide)
  exact h.2.2 494 rfl (by norm_num)

namespace Scoot

/-- The `Flight` dataclass of `flyscoot/scoot_scraper.py`; the three
converted-price fields default to `None` in the source. -/
structure Flight where
  airline : String
  origin : String
  destination : String
  departure_date : String
  price : ℚ
  currency : String
  scraped_at : String
  booking_url : String
  is_sale_fare : Bool
  price_usd : Option ℚ
  price_eur : Option ℚ
  price_gbp : Option ℚ
deriving DecidableEq, Repr

/-- Table `ScootScraper.EXCHANGE_RATES`: SGD-based table
(1 SGD = 0.75 USD = 0.68 EUR = 0.57 GBP). -/
def EXCHANGE_RATES : List (String × ℚ) :=
  [("SGD", 1), ("USD", 3/4), ("EUR", 17/25), ("GBP", 57/100)]

/-- Dictionary access `EXCHANGE_RATES[c]` / membership test. -/
def rateOf (c : String) : Option ℚ := EXCHANGE_RATES.lookup c

/-- Python `round(x, 2)` modelled on rationals: round to two decimal
places. -/
def round2 (q : ℚ) : ℚ := ((round (q * 100) : ℤ) : ℚ) / 100

/-- The dictionary returned by `ScootScraper.convert_price`. -/
structure ConvertedPrices where
  price_usd : ℚ
  price_eur : ℚ
  price_gbp : ℚ
deriving DecidableEq, Repr

/-- Function `ScootScraper.convert_price`: unknown source currencies fall back to
SGD; the price is divided by the source rate (to the SGD base) and then
multiplied by each target rate, rounded to 2 decimals. -/
def convert_price (price : ℚ) (from_currency : String) : ConvertedPrices :=
  let fc := if (rateOf from_currency).isSome then from_currency else "SGD"
  let base_price := price / ((rateOf fc).getD 1)
  { price_usd := round2 (base_price * ((rateOf ("USD")).getD 1)),
    price_eur := round2 (base_price * ((rateOf ("EUR")).getD 1)),
    price_gbp := round2 (base_price * ((rateOf ("GBP")).getD 1)) }

/-- One entry of a market's `lowFares` list; `none` models a JSON `null`
or absent `totalAmount`. -/
structure LowFareEntry where
  totalAmount : Option ℚ
  departureDate : String
  noFlights : Bool
  soldOut : Bool
deriving DecidableEq, Repr

/-- One element of `lowFareSearchMarkets`, with the single key the
parser reads. -/
structure Market where
  lowFares : List LowFareEntry
deriving DecidableEq, Repr

/-- A Scoot low-fare API response. -/
structure Response where
  lowFareSearchMarkets : List Market
deriving DecidableEq, Repr

/-- Constant `ScootScraper.BOOKING_URL`. -/
def BOOKING_URL : String := "https://booking.flyscoot.com"

/-- The booking deep link built for one emitted record. -/
def bookingUrl (origin destination dd : String) : String :=
  BOOKING_URL ++ "?origin=" ++ origin ++ "&destination=" ++ destination ++
    "&departure=" ++ dd

/-- Python `departure_date.split("T")[0] if "T" in departure_date else
departure_date`: in both cases this is the first fragment of the split,
since splitting a string without the separator yields the whole string. -/
def dateOnly (dd : String) : String := (dd.splitOn ("T")).headD dd

/-- Loop body of `ScootScraper.parse_lowfare_response` for one `lowFares`
entry: `none` when the entry is skipped (null `totalAmount`, `noFlights`
or `soldOut` set, or empty departure date). -/
def parseFare (scraped_at currency origin destination : String)
    (fare : LowFareEntry) : Option Flight :=
  match fare.totalAmount with
  | none => none
  | some ta =>
    if fare.noFlights || fare.soldOut then none
    else if fare.departureDate = "" then none
    else
      let dd := dateOnly fare.departureDate
      let conv := convert_price ta currency
      some { airline := "scoot", origin := origin, destination := destination,
             departure_date := dd, price := ta, currency := currency,
             scraped_at := scraped_at,
             booking_url := bookingUrl origin destination dd,
             is_sale_fare := false,
             price_usd := some conv.price_usd,
             price_eur := some conv.price_eur,
             price_gbp := some conv.price_gbp }

/-- Function `ScootScraper.parse_lowfare_response`: iterate the markets and their
`lowFares` entries in order; origin and destination come from the call
arguments, not from the response. -/
def parse_lowfare_response (scraped_at origin destination currency : String)
    (response : Response) : List Flight :=
  response.lowFareSearchMarkets.flatMap fun market =>
    market.lowFares.filterMap (parseFare scraped_at currency origin destination)

/-- Number of `lowFares` entries across all markets that carry a
non-null `totalAmount`. -/
def nonNullFareCount (response : Response) : Nat :=
  (response.lowFareSearchMarkets.map fun m =>
    (m.lowFares.filter fun f => f.totalAmount.isSome).length).sum

/-- The same response with every null-price fare entry removed. -/
def stripNullFares (response : Response) : Response :=
  ⟨response.lowFareSearchMarkets.map fun m =>
    ⟨m.lowFares.filter fun f => f.totalAmount.isSome⟩⟩

end Scoot

/-- C5: for every price `p` and source currency `c` present in the
configured exchange-rate table, `ScootScraper.convert_price` returns, for
each target currency in the fixed set USD/EUR/GBP, exactly
`round(p / rate[c] * rate[t], 2)` computed from the table. -/
theorem convert_price_formula (p : ℚ) (c : String) (rc : ℚ)
    (hc : Scoot.rateOf c = some rc) :
    Scoot.convert_price p c =
      { price_usd := Scoot.round2 (p / rc * ((Scoot.rateOf ("USD")).getD 0)),
        price_eur := Scoot.round2 (p / rc * ((Scoot.rateOf ("EUR")).getD 0)),
        price_gbp := Scoot.round2 (p / rc * ((Scoot.rateOf ("GBP")).getD 0)) } := by
  have hu : Scoot.rateOf ("USD") = some (3/4) := rfl
  have he : Scoot.rateOf ("EUR") = some (17/25) := rfl
  have hg : Scoot.rateOf ("GBP") = some (57/100) := rfl
  unfold Scoot.convert_price
  simp [hc, hu, he, hg]

/-- Witness for C5 at `p = 100`, `c = "SGD"` (rate 1). -/
theorem convert_price_formula_witness :
    Scoot.convert_price 100 ("SGD") =
      { price_usd := Scoot.round2 (100 / 1 * ((Scoot.rateOf ("USD")).getD 0)),
        price_eur := Scoot.round2 (100 / 1 * ((Scoot.rateOf ("EUR")).getD 0)),
        price_gbp := Scoot.round2 (100 / 1 * ((Scoot.rateOf ("GBP")).getD 0)) } :=
  convert_price_formula 100 ("SGD") 1 rfl

theorem filterMap_of_filter {α β : Type} (g : α → Option β) (p : α → Bool)
    (hg : ∀ a, p a = false → g a = none) (l : List α) :
    (l.filter p).filterMap g = l.filterMap g := by
  induction l with
  | nil => rfl
  | cons a t ih =>
    cases hp : p a
    · simp [List.filter_cons, hp, List.filterMap_cons, hg a hp, ih]
    · simp [List.filter_cons, hp, List.filterMap_cons, ih]

theorem length_filterMap_le_count {α β : Type} (g : α → Option β) (p : α → Bool)
    (hg : ∀ a, p a = false → g a = none) (l : List α) :
    (l.filterMap g).length ≤ (l.filter p).length := by
  rw [← filterMap_of_filter g p hg l]
  exact List.length_filterMap_le g (l.filter p)

theorem norse_parseFare_null (sa cur o d cn : String) (f : Norse.LowFare)
    (hf : (f.fareTotal.isSome) = false) :
    Norse.parseFare sa cur o d cn f = none := by
  unfold Norse.parseFare
  cases hft : f.fareTotal
  · rfl
  · rw [hft] at hf; simp at hf

theorem scoot_parseFare_null (sa cur o d : String) (f : Scoot.LowFareEntry)
    (hf : (f.totalAmount.isSome) = false) :
    Scoot.parseFare sa cur o d f = none := by
  unfold Scoot.parseFare
  cases hft : f.totalAmount
  · rfl
  · rw [hft] at hf; simp at hf

theorem norse_strip_eq (sa cur : String) (resp : Norse.Response) :
    Norse.parse_lowfare_response sa cur (Norse.stripNullFares resp) =
      Norse.parse_lowfare_response sa cur resp := by
  obtain ⟨data⟩ := resp
  unfold Norse.parse_lowfare_response Norse.stripNullFares
  simp only [List.flatMap_map]
  induction data with
  | nil => rfl
  | cons cp t ih =>
    simp only [List.flatMap_cons, ih]
    congr 1
    by_cases hcp : cp.origin = "" ∨ cp.destination = ""
    · simp [hcp]
    · simp only [hcp, if_false, List.flatMap_map]
      induction cp.cabins with
      | nil => rfl
      | cons cb ct ihc =>
        simp only [List.flatMap_cons, ihc]
        congr 1
        exact filterMap_of_filter _ _
          (fun f hf => norse_parseFare_null sa cur cp.origin cp.destination
            cb.cabinName f hf) cb.lowFareAmounts

theorem scoot_strip_eq (sa o d cur : String) (resp : Scoot.Response) :
    Scoot.parse_lowfare_response sa o d cur (Scoot.stripNullFares resp) =
      Scoot.parse_lowfare_response sa o d cur resp := by
  obtain ⟨markets⟩ := resp
  unfold Scoot.parse_lowfare_response Scoot.stripNullFares
  simp only [List.flatMap_map]
  induction markets with
  | nil => rfl
  | cons m t ih =>
    simp only [List.flatMap_cons, ih]
    congr 1
    exact filterMap_of_filter _ _
      (fun f hf => scoot_parseFare_null sa cur o d f hf) m.lowFares

theorem norse_count_le (sa cur : String) (resp : Norse.Response) :
    (Norse.parse_lowfare_response sa cur resp).length ≤
      Norse.nonNullFareCount resp := by
  obtain ⟨data⟩ := resp
  unfold Norse.parse_lowfare_response Norse.nonNullFareCount
  rw [List.length_flatMap]
  apply List.sum_le_sum
  intro cp _
  simp only [Function.comp]
  by_cases hcp : cp.origin = "" ∨ cp.destination = ""
  · simp [hcp]
  · simp only [hcp, if_false]
    rw [List.length_flatMap]
    apply List.sum_le_sum
    intro cb _
    simp only [Function.comp]
    exact length_filterMap_le_count _ _
      (fun f hf => norse_parseFare_null sa cur cp.origin cp.destination
        cb.cabinName f hf) cb.lowFareAmounts

theorem scoot_count_le (sa o d cur : String) (resp : Scoot.Response) :
    (Scoot.parse_lowfare_response sa o d cur resp).length ≤
      Scoot.nonNullFareCount resp := by
  obtain ⟨markets⟩ := resp
  unfold Scoot.parse_lowfare_response Scoot.nonNullFareCount
  rw [List.length_flatMap]
  apply List.sum_le_sum
  intro m _
  simp only [Function.comp]
  exact length_filterMap_le_count _ _
    (fun f hf => scoot_parseFare_null sa cur o d f hf) m.lowFares

/-- C3: for every raw response, both normalizers emit no record for a
fare entry whose price field (Norse `fareTotal`, Scoot `totalAmount`) is
null or absent — removing all such entries leaves the output unchanged —
and the number of emitted records never exceeds the number of
(date, fareBucket) entries carrying a non-null price. -/
theorem normalizer_null_price_skip (sa cur o d : String)
    (nresp : Norse.Response) (sresp : Scoot.Response) :
    Norse.parse_lowfare_response sa cur (Norse.stripNullFares nresp) =
      Norse.parse_lowfare_response sa cur nresp ∧
    (Norse.parse_lowfare_response sa cur nresp).length ≤
      Norse.nonNullFareCount nresp ∧
    Scoot.parse_lowfare_response sa o d cur (Scoot.stripNullFares sresp) =
      Scoot.parse_lowfare_response sa o d cur sresp ∧
    (Scoot.parse_lowfare_response sa o d cur sresp).length ≤
      Scoot.nonNullFareCount sresp :=
  ⟨norse_strip_eq sa cur nresp, norse_count_le sa cur nresp,
   scoot_strip_eq sa o d cur sresp, scoot_count_le sa o d cur sresp⟩

/-- One record of the merged dataset: a per-source flight dictionary as
loaded from that source's snapshot file. -/
inductive MRec where
  | norse (f : Norse.Flight)
  | scoot (f : Scoot.Flight)
deriving DecidableEq, Repr

/-- Python access of the airline key on a loaded record. -/
def MRec.airline : MRec → String
  | .norse f => f.airline
  | .scoot f => f.airline

/-- The (source, origin, destination, departureDate) identity key of a
merged record. -/
def MRec.key : MRec → String × String × String × String
  | .norse f => (f.airline, f.origin, f.destination, f.departure_date)
  | .scoot f => (f.airline, f.origin, f.destination, f.departure_date)

theorem MRec.key_fst (r : MRec) : r.key.1 = r.airline := by
  cases r <;> rfl

/-- Function `merge_flights` of `merge_flights.py` on the two loaded snapshot
collections: the merged dataset is the Scoot records followed by the
Norse records; the airline counting that follows in the source is
observability only and does not alter the list. -/
def merge_flights (scoot_flights norse_flights : List MRec) : List MRec :=
  scoot_flights ++ norse_flights

/-- A Norse response listing the same departure date under two cabins,
each with a non-null fare. -/
def twoCabinResponse : Norse.Response :=
  ⟨[⟨"LGW", "BKK",
     [⟨"Economy", [⟨some 100, none, "2026-01-09T00:00:00", false⟩]⟩,
      ⟨"Premium", [⟨some 200, none, "2026-01-09T00:00:00", false⟩]⟩]⟩]⟩

/-- C1 counterexample: the Norse normalizer emits two records with the
same (source, origin, destination, departureDate) key for a response
carrying the same date under two cabins, and the Merger deduplicates
nothing, so the resulting merged dataset has a duplicate key. -/
theorem merge_dedup_counterexample :
    ¬ (((WF.merge_flights []
          ((Norse.parse_lowfare_response ("t") ("GBP") twoCabinResponse).map
            MRec.norse)).map MRec.key).Nodup) := by
  decide

/-- C1 amended: the Merger retains every record of both snapshots and
performs no deduplication of its own; records from different sources can
never collide on the key because its first component is the source tag,
so the merged dataset is key-unique exactly when each per-source
snapshot is key-unique on its own (which the Norse normalizer does not
itself guarantee, see the counterexample). -/
theorem merge_dedup_amended (scoot norse : List MRec)
    (hs : ∀ r ∈ scoot, r.airline = "scoot")
    (hn : ∀ r ∈ norse, r.airline = "norse")
    (hsu : (scoot.map MRec.key).Nodup)
    (hnu : (norse.map MRec.key).Nodup) :
    (∀ r ∈ scoot, r ∈ WF.merge_flights scoot norse) ∧
    (∀ r ∈ norse, r ∈ WF.merge_flights scoot norse) ∧
    ((WF.merge_flights scoot norse).map MRec.key).Nodup := by
  refine ⟨?_, ?_, ?_⟩
  · intro r hr; exact List.mem_append_left _ hr
  · intro r hr; exact List.mem_append_right _ hr
  · unfold WF.merge_flights
    rw [List.map_append, List.nodup_append]
    refine ⟨hsu, hnu, ?_⟩
    intro k hk1 hk2
    rcases List.mem_map.mp hk1 with ⟨r1, hr1, hk1e⟩
    rcases List.mem_map.mp hk2 with ⟨r2, hr2, hk2e⟩
    have h1 : k.1 = "scoot" := by
      rw [← hk1e, MRec.key_fst]; exact hs r1 hr1
    have h2 : k.1 = "norse" := by
      rw [← hk2e, MRec.key_fst]; exact hn r2 hr2
    rw [h1] at h2
    exact absurd h2 (by decide)

/-- A one-record Scoot snapshot used to witness the amended merge
property. -/
def sampleScootRecs : List MRec :=
  [MRec.scoot ⟨"scoot", "SIN", "BKK", "2026-01-09", 45, "SGD", "t", "u",
    false, none, none, none⟩]

/-- A one-record Norse snapshot for the same route and date. -/
def sampleNorseRecs : List MRec :=
  [MRec.norse ⟨"norse", "SIN", "BKK", "2026-01-09", 494, "GBP", "t", "u",
    false⟩]

/-- Witness for the amended C1: two key-unique single-record snapshots
for the same route and date merge into a key-unique dataset retaining
both records. -/
theorem merge_dedup_amended_witness :
    (∀ r ∈ sampleScootRecs,
      r ∈ WF.merge_flights sampleScootRecs sampleNorseRecs) ∧
    (∀ r ∈ sampleNorseRecs,
      r ∈ WF.merge_flights sampleScootRecs sampleNorseRecs) ∧
    ((WF.merge_flights sampleScootRecs sampleNorseRecs).map MRec.key).Nodup :=
  merge_dedup_amended sampleScootRecs sampleNorseRecs
    (by decide) (by decide) (by decide) (by decide)

/-- Function `NorseScraper.scrape_route` with the network call injected: iterate
the planner's windows in order, appending the parsed records of each
successful fetch; a raised error (e.g. an HTTPError with status 403) is
caught and the loop continues with the next window. -/
def Norse.scrape_route (fetch : Window → Except Nat Norse.Response)
    (scraped_at currency : String) (today : Date) (months_ahead : Nat) :
    List Norse.Flight :=
  (planWindows today months_ahead).foldl
    (fun acc w =>
      match fetch w with
      | .ok resp => acc ++ Norse.parse_lowfare_response scraped_at currency resp
      | .error _ => acc) []

/-- The monthly point-query dates of `ScootScraper.scrape_route`: the
15th of each month of the horizon, replaced by `today` in the first
month when today is past the 15th. -/
def scootPlanDates (today : Date) (months_ahead : Nat) : List Date :=
  (List.range months_ahead).map fun off =>
    if off = 0 ∧ 15 < today.day then today
    else ⟨offYear today off, offMonth today off, 15⟩

/-- Function `ScootScraper.scrape_route` with the network call injected: one
point query per month, per-window error isolation as for Norse. -/
def Scoot.scrape_route (fetch : Date → Except Nat Scoot.Response)
    (scraped_at origin destination currency : String)
    (today : Date) (months_ahead : Nat) : List Scoot.Flight :=
  (scootPlanDates today months_ahead).foldl
    (fun acc dt =>
      match fetch dt with
      | .ok resp =>
          acc ++ Scoot.parse_lowfare_response scraped_at origin destination
            currency resp
      | .error _ => acc) []

theorem foldl_append_flatMap {α β : Type} (h : α → List β) :
    ∀ (l : List α) (acc : List β),
      l.foldl (fun a w => a ++ h w) acc = acc ++ l.flatMap h := by
  intro l
  induction l with
  | nil => intro acc; simp
  | cons x t ih =>
    intro acc
    simp only [List.foldl_cons, List.flatMap_cons, ih, List.append_assoc]

/-- C6: for every injected fetch (in particular one that raises an HTTP
error such as a 403 on some windows), a route scrape equals the
concatenation, in window order, of the records parsed from exactly the
windows whose fetch succeeded: a failed window contributes the empty
list, and every later window of the route is still processed. -/
theorem scrape_route_error_isolation
    (nfetch : Window → Except Nat Norse.Response)
    (sfetch : Date → Except Nat Scoot.Response)
    (sa cur o d : String) (today : Date) (n : Nat) :
    Norse.scrape_route nfetch sa cur today n =
      (planWindows today n).flatMap (fun w =>
        match nfetch w with
        | .ok resp => Norse.parse_lowfare_response sa cur resp
        | .error _ => []) ∧
    Scoot.scrape_route sfetch sa o d cur today n =
      (scootPlanDates today n).flatMap (fun dt =>
        match sfetch dt with
        | .ok resp => Scoot.parse_lowfare_response sa o d cur resp
        | .error _ => []) := by
  constructor
  · unfold Norse.scrape_route
    have hfun : (fun (acc : List Norse.Flight) w =>
        match nfetch w with
        | .ok resp => acc ++ Norse.parse_lowfare_response sa cur resp
        | .error _ => acc) =
        (fun acc w => acc ++ (match nfetch w with
          | .ok resp => Norse.parse_lowfare_response sa cur resp
          | .error _ => [])) := by
      funext acc w
      cases nfetch w <;> simp
    rw [hfun, foldl_append_flatMap]
    simp
  · unfold Scoot.scrape_route
    have hfun : (fun (acc : List Scoot.Flight) dt =>
        match sfetch dt with
        | .ok resp =>
            acc ++ Scoot.parse_lowfare_response sa o d cur resp
        | .error _ => acc) =
        (fun acc dt => acc ++ (match sfetch dt with
          | .ok resp => Scoot.parse_lowfare_response sa o d cur resp
          | .error _ => [])) := by
      funext acc dt
      cases sfetch dt <;> simp
    rw [hfun, foldl_append_flatMap]
    simp

/-- Route list `NorseScraper.ROUTES`. -/
def Norse.ROUTES : List (String × String) :=
  [("LGW", "JFK"), ("JFK", "LGW"), ("LGW", "LAX"), ("LAX", "LGW"),
   ("LGW", "MIA"), ("MIA", "LGW"), ("LGW", "OAK"), ("OAK", "LGW"),
   ("OSL", "JFK"), ("JFK", "OSL"), ("OSL", "LAX"), ("LAX", "OSL"),
   ("OSL", "MIA"), ("MIA", "OSL"), ("OSL", "FLL"), ("FLL", "OSL"),
   ("BER", "JFK"), ("JFK", "BER"), ("BER", "LAX"), ("LAX", "BER"),
   ("BER", "MIA"), ("MIA", "BER"),
   ("LGW", "BKK"), ("BKK", "LGW"), ("OSL", "BKK"), ("BKK", "OSL"),
   ("MAN", "BKK"), ("BKK", "MAN")]

/-- Route list `ScootScraper.ROUTES`. -/
def Scoot.ROUTES : List (String × String) :=
  [("SIN", "BKK"), ("BKK", "SIN"), ("SIN", "KUL"), ("KUL", "SIN"),
   ("SIN", "CGK"), ("CGK", "SIN"), ("SIN", "DPS"), ("DPS", "SIN"),
   ("SIN", "HAN"), ("HAN", "SIN"), ("SIN", "SGN"), ("SGN", "SIN"),
   ("BKK", "KUL"), ("KUL", "BKK"), ("BKK", "CGK"), ("CGK", "BKK"),
   ("BKK", "DPS"), ("DPS", "BKK"), ("BKK", "HAN"), ("HAN", "BKK"),
   ("KUL", "CGK"), ("CGK", "KUL"), ("KUL", "DPS"), ("DPS", "KUL"),
   ("KUL", "HAN"), ("HAN", "KUL"), ("CGK", "DPS"), ("DPS", "CGK"),
   ("CGK", "HAN"), ("HAN", "CGK"), ("DPS", "HAN"), ("HAN", "DPS")]

/-- Function `NorseScraper.scrape_all_routes`: aggregate each configured route's
records in order. -/
def Norse.scrape_all_routes
    (fetch : String → String → Window → Except Nat Norse.Response)
    (scraped_at currency : String) (today : Date) (months_ahead : Nat) :
    List Norse.Flight :=
  Norse.ROUTES.foldl
    (fun acc r =>
      acc ++ Norse.scrape_route (fetch r.1 r.2) scraped_at currency today
        months_ahead) []

/-- Function `ScootScraper.scrape_all_routes`. -/
def Scoot.scrape_all_routes
    (fetch : String → String → Date → Except Nat Scoot.Response)
    (scraped_at currency : String) (today : Date) (months_ahead : Nat) :
    List Scoot.Flight :=
  Scoot.ROUTES.foldl
    (fun acc r =>
      acc ++ Scoot.scrape_route (fetch r.1 r.2) scraped_at r.1 r.2 currency
        today months_ahead) []

/-- The artifact writes the Norse `main` performs, as (path, records)
pairs in program order: nothing is written when the scrape produced no
records (the `if flights:` guard), otherwise the dated snapshot and then
the current `flights.json`. -/
def Norse.mainWrites (run_date : String) (flights : List Norse.Flight) :
    List (String × List Norse.Flight) :=
  if flights.isEmpty then []
  else [("norse_flights_" ++ run_date ++ ".json", flights),
        ("flights.json", flights)]

/-- The artifact writes the Scoot `main` performs, same structure as the
Norse one. -/
def Scoot.mainWrites (run_date : String) (flights : List Scoot.Flight) :
    List (String × List Scoot.Flight) :=
  if flights.isEmpty then []
  else [("scoot_flights_" ++ run_date ++ ".json", flights),
        ("flights.json", flights)]

theorem foldl_append_all_nil {α β : Type} (g : α → List β) :
    ∀ (l : List α) (acc : List β), (∀ a ∈ l, g a = []) →
      l.foldl (fun acc r => acc ++ g r) acc = acc := by
  intro l
  induction l with
  | nil => intro acc _; rfl
  | cons x t ih =>
    intro acc h
    rw [List.foldl_cons, h x (by simp), List.append_nil]
    exact ih acc (fun a ha => h a (by simp [ha]))

theorem norse_scrape_route_all_fail
    (fetch : Window → Except Nat Norse.Response)
    (h : ∀ w, ∃ e, fetch w = .error e) (sa cur : String) (today : Date)
    (n : Nat) : Norse.scrape_route fetch sa cur today n = [] := by
  unfold Norse.scrape_route
  generalize planWindows today n = ws
  induction ws with
  | nil => rfl
  | cons w t ih =>
    rcases h w with ⟨e, he⟩
    simp only [List.foldl_cons, he]
    exact ih

theorem scoot_scrape_route_all_fail
    (fetch : Date → Except Nat Scoot.Response)
    (h : ∀ dt, ∃ e, fetch dt = .error e) (sa o d cur : String)
    (today : Date) (n : Nat) :
    Scoot.scrape_route fetch sa o d cur today n = [] := by
  unfold Scoot.scrape_route
  generalize scootPlanDates today n = ds
  induction ds with
  | nil => rfl
  | cons dt t ih =>
    rcases h dt with ⟨e, he⟩
    simp only [List.foldl_cons, he]
    exact ih

/-- C7 counterexample: a Norse run in which every window fetch fails
with HTTP 403 aggregates zero records and then writes no artifact at
all — in particular neither an empty dated snapshot nor an empty current
snapshot is persisted. -/
theorem empty_run_no_snapshot_counterexample :
    Norse.mainWrites ("2026-10-12")
      (Norse.scrape_all_routes (fun _ _ _ => Except.error 403) ("t") ("GBP")
        ⟨2026, 10, 12⟩ 6) = [] ∧
    ("norse_flights_2026-10-12.json", ([] : List Norse.Flight)) ∉
      Norse.mainWrites ("2026-10-12")
        (Norse.scrape_all_routes (fun _ _ _ => Except.error 403) ("t")
          ("GBP") ⟨2026, 10, 12⟩ 6) ∧
    ("flights.json", ([] : List Norse.Flight)) ∉
      Norse.mainWrites ("2026-10-12")
        (Norse.scrape_all_routes (fun _ _ _ => Except.error 403) ("t")
          ("GBP") ⟨2026, 10, 12⟩ 6) := by
  have h : Norse.scrape_all_routes (fun _ _ _ => Except.error 403)
      ("t") ("GBP") ⟨2026, 10, 12⟩ 6 = [] := by
    unfold Norse.scrape_all_routes
    exact foldl_append_all_nil _ _ _
      (fun r _ => norse_scrape_route_all_fail _ (fun w => ⟨403, rfl⟩) _ _ _ _)
  rw [h]
  refine ⟨rfl, by simp [Norse.mainWrites], by simp [Norse.mainWrites]⟩

/-- C7 amended: a source run in which every window fetch fails
aggregates zero records and performs no snapshot persistence at all —
neither a dated nor a current artifact is written; the run completes
without aborting but skips the write step rather than producing empty
artifacts. -/
theorem empty_run_no_snapshot_amended
    (nfetch : String → String → Window → Except Nat Norse.Response)
    (sfetch : String → String → Date → Except Nat Scoot.Response)
    (sa cur ds : String) (today : Date) (n : Nat)
    (hn : ∀ o d w, ∃ e, nfetch o d w = .error e)
    (hs : ∀ o d dt, ∃ e, sfetch o d dt = .error e) :
    Norse.mainWrites ds
      (Norse.scrape_all_routes nfetch sa cur today n) = [] ∧
    Scoot.mainWrites ds
      (Scoot.scrape_all_routes sfetch sa cur today n) = [] := by
  constructor
  · have h : Norse.scrape_all_routes nfetch sa cur today n = [] := by
      unfold Norse.scrape_all_routes
      exact foldl_append_all_nil _ _ _
        (fun r _ =>
          norse_scrape_route_all_fail _ (fun w => hn r.1 r.2 w) _ _ _ _)
    rw [h]; rfl
  · have h : Scoot.scrape_all_routes sfetch sa cur today n = [] := by
      unfold Scoot.scrape_all_routes
      exact foldl_append_all_nil _ _ _
        (fun r _ =>
          scoot_scrape_route_all_fail _ (fun dt => hs r.1 r.2 dt) _ _ _ _ _ _)
    rw [h]; rfl

/-- Witness for the amended C7 with every fetch failing with 403. -/
theorem empty_run_no_snapshot_amended_witness :
    Norse.mainWrites ("2026-10-12")
      (Norse.scrape_all_routes (fun _ _ _ => Except.error 403) ("t") ("GBP")
        ⟨2026, 10, 12⟩ 6) = [] ∧
    Scoot.mainWrites ("2026-10-12")
      (Scoot.scrape_all_routes (fun _ _ _ => Except.error 403) ("t") ("GBP")
        ⟨2026, 10, 12⟩ 6) = [] :=
  empty_run_no_snapshot_amended (fun _ _ _ => Except.error 403)
    (fun _ _ _ => Except.error 403) ("t") ("GBP") ("2026-10-12")
    ⟨2026, 10, 12⟩ 6 (fun _ _ _ => ⟨403, rfl⟩) (fun _ _ _ => ⟨403, rfl⟩)

/-- A file-system operation issued during persistence, in program order:
`openTrunc p` models `open(p, "w")` (the target file is truncated in
place), `writeData p` the `json.dump` into the open handle, and
`renameTo s t` an atomic rename of a finished temporary file onto the
target (no call site of this code issues one). -/
inductive FsOp where
  | openTrunc (path : String)
  | writeData (path : String)
  | renameTo (src target : String)
deriving DecidableEq, Repr

/-- The operations `save_merged_flights` of `merge_flights.py` issues
for its sink list (default `["flights.json", "flynorse/flights.json"]`):
for each sink a direct truncating open followed by the dump. -/
def save_merged_flights_ops (output_files : List String) : List FsOp :=
  output_files.flatMap fun p => [.openTrunc p, .writeData p]

/-- The operations the Norse `main` issues when persisting a non-empty
run: dated snapshot then current snapshot, each a direct truncating open
followed by the dump. -/
def norse_save_ops (run_date : String) : List FsOp :=
  [.openTrunc ("norse_flights_" ++ run_date ++ ".json"),
   .writeData ("norse_flights_" ++ run_date ++ ".json"),
   .openTrunc ("flights.json"), .writeData ("flights.json")]

/-- Modelled from the spec: "write-to-temp-then-rename, or equivalent,
is required". A persistence step is atomic for a target artifact when
the target is never opened for a truncating in-place write and appears
as the destination of some rename of a finished file. -/
def atomicFor (ops : List FsOp) (target : String) : Bool :=
  (ops.all fun op =>
    match op with
    | .openTrunc p => p != target
    | _ => true) &&
  (ops.any fun op =>
    match op with
    | .renameTo _ t => t == target
    | _ => false)

theorem save_merged_any_rename_false (files : List String)
    (q : String → Bool) :
    ((save_merged_flights_ops files).any fun op =>
      match op with
      | .renameTo _ t => q t
      | _ => false) = false := by
  rw [List.any_eq_false]
  intro op hop
  rcases List.mem_flatMap.mp hop with ⟨p, _, hmem⟩
  simp only [List.mem_cons, List.mem_singleton] at hmem
  rcases hmem with h | h | h
  · subst h; simp
  · subst h; simp
  · simp at h

/-- C8 counterexample: the merger's default sinks and the Norse snapshot
writer both write `flights.json` by truncating it in place, and neither
ever issues a rename; the persistence step is not atomic in the
write-to-temp-then-rename sense for a concurrent reader. -/
theorem atomic_write_counterexample :
    atomicFor
        (save_merged_flights_ops ["flights.json", "flynorse/flights.json"])
        ("flights.json") = false ∧
    atomicFor (norse_save_ops ("2026-10-12")) ("flights.json") = false := by
  decide

/-- C8 amended: every artifact write of the snapshot writer and the
merger opens its target in truncating write mode and dumps the JSON
directly into it; no temp-then-rename step exists for any sink, so a
reader arriving between the truncation and the completed dump can
observe a partially written artifact. -/
theorem atomic_write_amended (files : List String) (p run_date : String)
    (hp : p ∈ files) :
    FsOp.openTrunc p ∈ save_merged_flights_ops files ∧
    atomicFor (save_merged_flights_ops files) p = false ∧
    FsOp.openTrunc ("flights.json") ∈ norse_save_ops run_date ∧
    atomicFor (norse_save_ops run_date) ("flights.json") = false := by
  refine ⟨?_, ?_, ?_, ?_⟩
  · exact List.mem_flatMap.mpr ⟨p, hp, by simp⟩
  · unfold atomicFor
    rw [save_merged_any_rename_false files]
    simp
  · simp [norse_save_ops]
  · unfold atomicFor
    have h : ((norse_save_ops run_date).any fun op =>
        match op with
        | .renameTo _ t => t == ("flights.json")
        | _ => false) = false := by
      simp [norse_save_ops]
    rw [h]
    simp

/-- Witness for the amended C8 at the merger's default sink list. -/
theorem atomic_write_amended_witness :
    FsOp.openTrunc ("flights.json") ∈
      save_merged_flights_ops ["flights.json", "flynorse/flights.json"] ∧
    atomicFor
        (save_merged_flights_ops ["flights.json", "flynorse/flights.json"])
        ("flights.json") = false ∧
    FsOp.openTrunc ("flights.json") ∈ norse_save_ops ("2026-10-12") ∧
    atomicFor (norse_save_ops ("2026-10-12")) ("flights.json") = false :=
  atomic_write_amended ["flights.json", "flynorse/flights.json"]
    ("flights.json") ("2026-10-12") (by simp)

/-- A scalar JSON value as it appears in a serialized FareRecord field. -/
inductive JLeaf where
  | str (s : String)
  | num (q : ℚ)
  | bool (b : Bool)
deriving DecidableEq, Repr

/-- One serialized record: the key/value pairs `dataclasses.asdict`
produces for a Norse `Flight`, in dataclass field order. -/
def asdict (f : Norse.Flight) : List (String × JLeaf) :=
  [("airline", .str f.airline), ("origin", .str f.origin),
   ("destination", .str f.destination),
   ("departure_date", .str f.departure_date),
   ("price", .num f.price), ("currency", .str f.currency),
   ("scraped_at", .str f.scraped_at),
   ("booking_url", .str f.booking_url),
   ("is_sale_fare", .bool f.is_sale_fare)]

/-- A parsed snapshot file as `json.load` returns it: a list of records
or a single record. -/
inductive JsonDoc where
  | arr (recs : List (List (String × JLeaf)))
  | single (rec : List (String × JLeaf))
deriving DecidableEq, Repr

/-- Function `load_json_file` of `merge_flights.py` after a successful parse:
`data if isinstance(data, list) else [data]`. -/
def load_json_file : JsonDoc → List (List (String × JLeaf))
  | .arr recs => recs
  | .single r => [r]

/-- The snapshot artifact the Norse `main` writes for a record list:
`json.dump([asdict(f) for f in flights])`. -/
def writeSnapshot (flights : List Norse.Flight) : JsonDoc :=
  .arr (flights.map asdict)

/-- Reconstruction of a `Flight` from one serialized key/value record,
reading each canonical field by its key; `none` when a key is missing
or its value has the wrong shape. -/
def readFlight (r : List (String × JLeaf)) : Option Norse.Flight :=
  match r.lookup ("airline"), r.lookup ("origin"),
      r.lookup ("destination"), r.lookup ("departure_date"),
      r.lookup ("price"), r.lookup ("currency"), r.lookup ("scraped_at"),
      r.lookup ("booking_url"), r.lookup ("is_sale_fare") with
  | some (.str a), some (.str o), some (.str d), some (.str dd),
      some (.num p), some (.str c), some (.str sa), some (.str bu),
      some (.bool sf) => some ⟨a, o, d, dd, p, c, sa, bu, sf⟩
  | _, _, _, _, _, _, _, _, _ => none

/-- C9: writing a FareRecord collection as a snapshot artifact and
reading the artifact back yields a structurally identical collection:
`load_json_file` returns exactly the serialized records with the same
length and order, and reconstructing each record field by field recovers
the original collection. -/
theorem snapshot_roundtrip (flights : List Norse.Flight) :
    load_json_file (writeSnapshot flights) = flights.map asdict ∧
    (load_json_file (writeSnapshot flights)).length = flights.length ∧
    (load_json_file (writeSnapshot flights)).mapM readFlight =
      some flights := by
  refine ⟨rfl, by simp [load_json_file, writeSnapshot], ?_⟩
  induction flights with
  | nil => rfl
  | cons f t ih =>
    simp only [writeSnapshot, load_json_file, List.map_cons] at ih ⊢
    rw [List.mapM_cons]
    have hf : readFlight (asdict f) = some f := rfl
    simp only [hf, ih]
    rfl

end WF
